import Mathlib

/-!
Shallow embedding of the modplayer repository's NEON mixer
(`src/mixer_neon.c`, function `MixChannels_NEON`) together with a scalar
reference path modelled from the specification, and proofs settling the
claims about the mixer.

Memory is modelled as lists of mathematical integers: `int8_t` cells hold
values in `[-128, 127]`, `int16_t` cells hold values in `[-32768, 32767]`.
Loads reinterpret the cell through the corresponding two's-complement wrap
(the identity on in-range contents).  A call that would access a buffer
outside its extent is modelled as `none`.
-/

/-- Reinterpretation of an integer as a signed 8-bit value (two's-complement
wrap), the reading of an `int8_t` memory cell. -/
def wrap8 (z : Int) : Int := (z + 128) % 256 - 128

/-- Reinterpretation of an integer as a signed 16-bit value (two's-complement
wrap), the reading of an `int16_t` memory cell or NEON `s16` lane. -/
def wrap16 (z : Int) : Int := (z + 32768) % 65536 - 32768

/-- Saturation to the signed 16-bit range, the clamping performed by the NEON
saturating add `vqaddq_s16`. -/
def sat16 (z : Int) : Int := max (-32768) (min 32767 z)

/-- Arithmetic shift right by 8 of a 16-bit lane, `vshrq_n_s16(x, 8)`:
on lane values this is floor division by 256. -/
def sshr8 (z : Int) : Int := Int.ediv z 256

/-- The scale-factor pipeline of `MixChannels_NEON`:
`vreinterpretq_s16_u16 (vmovl_u8 (vdup_n_u8 vol))`.  The volume byte is
broadcast, zero-extended to an unsigned 16-bit lane, and the lane is
reinterpreted bit-for-bit as signed 16-bit. -/
def scaleFactor (vol : Nat) : Int := wrap16 ((vol % 256 : Nat) : Int)

/-- One lane of the NEON pipeline for one output channel: sign-extend the
sample byte (`vld1_s8` then `vmovl_s8`), multiply in 16-bit lanes
(`vmulq_s16`, which keeps the low 16 bits of the product), arithmetic shift
right by 8 (`vshrq_n_s16`), then saturating-add into the existing output lane
(`vqaddq_s16`). -/
def mixLane (s outv f : Int) : Int :=
  sat16 (sshr8 (wrap16 (wrap8 s * f)) + wrap16 outv)

/-- Shallow embedding of `MixChannels_NEON` from `src/mixer_neon.c`.

The C function computes both scale factors from `lvol` and `rvol`,
deinterleaves the first 16 output samples with `vld2q_s16(out)`, loads the
first 8 source bytes with `vld1_s8(data)`, mixes each lane for the left and
the right channel, and stores the two mixed lanes re-interleaved with
`vst2q_s16(out)`.  `len` is never read.  Lane `i` of the left result lands at
`out[2*i]` and lane `i` of the right result at `out[2*i + 1]`; all output
entries from index 16 on are untouched.  `none` models the out-of-bounds
access made when the source buffer holds fewer than 8 samples or the output
buffer fewer than 16. -/
def MixChannels_NEON (out data : List Int) (lvol rvol : Nat) (len : Int) :
    Option (List Int) :=
  if 8 ≤ data.length ∧ 16 ≤ out.length then
    some (((List.range 8).flatMap fun i =>
      [mixLane (data.getD i 0) (out.getD (2 * i) 0) (scaleFactor lvol),
       mixLane (data.getD i 0) (out.getD (2 * i + 1) 0) (scaleFactor rvol)])
      ++ out.drop 16)
  else none

/-- Modelled from the spec: the error taxonomy of §7.  The C seed itself has
no error type (`MixChannels_NEON` returns `void`); this type exists only for
the spec-side reference operation. -/
inductive MixError where
  | LengthMismatch : MixError
  | UnsupportedWidth : MixError
  deriving DecidableEq

/-- Modelled from the spec: ScaleAndShift (§4.3) for one sample and one
channel, `(s * f) >> 8` with the product taken in unbounded width before the
shift, as the spec's contract demands. -/
def scalarMixSample (s : Int) (vol : Nat) : Int := Int.ediv (s * (vol : Int)) 256

/-- Modelled from the spec: the per-sample ScalarFallback loop (§4.6).  Each
source sample is scaled for the left and for the right channel and
saturating-added into the corresponding interleaved output pair; output
entries beyond `2 * N` are preserved. -/
def scalarMix : List Int → List Int → Nat → Nat → List Int
  | s :: srest, o₁ :: o₂ :: orest, lvol, rvol =>
      sat16 (scalarMixSample s lvol + o₁) :: sat16 (scalarMixSample s rvol + o₂) ::
        scalarMix srest orest lvol rvol
  | _, out, _, _ => out

/-- Modelled from the spec: the external operation `mixChannels` (§6) run on
the ScalarFallback path (§4.6), with the validate-then-act length checks of
§7: the source length must equal `length` and the output must hold at least
`2 * length` entries, otherwise the call fails with `LengthMismatch` and the
output is untouched. -/
def ScalarFallback (out data : List Int) (lvol rvol : Nat) (length : Nat) :
    Except MixError (List Int) :=
  if data.length = length ∧ 2 * length ≤ out.length then
    Except.ok (scalarMix data out lvol rvol)
  else
    Except.error MixError.LengthMismatch

/-! ### Basic arithmetic lemmas about the lane operations -/

/-- Reading an in-range `int8_t` cell returns its value. -/
theorem wrap8_eq_of_mem (z : Int) (h₁ : -128 ≤ z) (h₂ : z ≤ 127) : wrap8 z = z := by
  unfold wrap8; omega

/-- Reading an in-range `int16_t` cell or lane returns its value. -/
theorem wrap16_eq_of_mem (z : Int) (h₁ : -32768 ≤ z) (h₂ : z ≤ 32767) : wrap16 z = z := by
  unfold wrap16; omega

/-- Saturation is the identity on in-range values. -/
theorem sat16_eq_of_mem (z : Int) (h₁ : -32768 ≤ z) (h₂ : z ≤ 32767) : sat16 z = z := by
  unfold sat16
  rw [min_eq_right h₂, max_eq_right h₁]

/-- Saturation always lands in the signed 16-bit range. -/
theorem sat16_mem (z : Int) : -32768 ≤ sat16 z ∧ sat16 z ≤ 32767 := by
  unfold sat16
  exact ⟨le_max_left _ _, max_le (by norm_num) (min_le_left _ _)⟩

/-- Every mixed lane lands in the signed 16-bit range. -/
theorem mixLane_mem (s outv f : Int) : -32768 ≤ mixLane s outv f ∧ mixLane s outv f ≤ 32767 :=
  sat16_mem _

/-- The widen-then-reinterpret scale-factor pipeline is value-preserving on
volume bytes. -/
theorem scaleFactor_eq (vol : Nat) (hv : vol ≤ 255) : scaleFactor vol = (vol : Int) := by
  unfold scaleFactor wrap16
  rw [Nat.mod_eq_of_lt (by omega)]
  omega

/-- Bounds of the 16-bit lane product: a signed sample byte times a volume
byte stays inside the signed 16-bit range. -/
theorem mix_mul_bounds (s : Int) (v : Nat) (h₁ : -128 ≤ s) (h₂ : s ≤ 127) (hv : v ≤ 255) :
    -32640 ≤ s * (v : Int) ∧ s * (v : Int) ≤ 32385 := by
  have hv0 : (0 : Int) ≤ (v : Int) := Int.natCast_nonneg v
  have hv255 : (v : Int) ≤ 255 := by exact_mod_cast hv
  constructor <;> nlinarith

/-- On legal inputs one NEON lane computes exactly the scalar per-sample mix:
the 16-bit product does not wrap, so multiply-then-shift is exact. -/
theorem mixLane_eq (s outv : Int) (v : Nat) (h₁ : -128 ≤ s) (h₂ : s ≤ 127)
    (ho₁ : -32768 ≤ outv) (ho₂ : outv ≤ 32767) (hv : v ≤ 255) :
    mixLane s outv (scaleFactor v) = sat16 (scalarMixSample s v + outv) := by
  obtain ⟨hm₁, hm₂⟩ := mix_mul_bounds s v h₁ h₂ hv
  unfold mixLane
  rw [wrap8_eq_of_mem s h₁ h₂, scaleFactor_eq v hv,
      wrap16_eq_of_mem (s * (v : Int)) (by omega) (by omega),
      wrap16_eq_of_mem outv ho₁ ho₂]
  rfl

/-! ### List decomposition helpers -/

/-- A list of at least 8 entries splits into 8 heads and a tail. -/
theorem exists_take8 (l : List Int) (h : 8 ≤ l.length) :
    ∃ a₀ a₁ a₂ a₃ a₄ a₅ a₆ a₇ t,
      l = a₀ :: a₁ :: a₂ :: a₃ :: a₄ :: a₅ :: a₆ :: a₇ :: t := by
  rcases l with _ | ⟨a₀, l⟩; · simp at h
  rcases l with _ | ⟨a₁, l⟩; · simp at h
  rcases l with _ | ⟨a₂, l⟩; · simp at h
  rcases l with _ | ⟨a₃, l⟩; · simp at h
  rcases l with _ | ⟨a₄, l⟩; · simp at h
  rcases l with _ | ⟨a₅, l⟩; · simp at h
  rcases l with _ | ⟨a₆, l⟩; · simp at h
  rcases l with _ | ⟨a₇, l⟩; · simp at h
  exact ⟨a₀, a₁, a₂, a₃, a₄, a₅, a₆, a₇, l, rfl⟩

/-- A list of at least 16 entries splits into 16 heads and a tail. -/
theorem exists_take16 (l : List Int) (h : 16 ≤ l.length) :
    ∃ b₀ b₁ b₂ b₃ b₄ b₅ b₆ b₇ b₈ b₉ b₁₀ b₁₁ b₁₂ b₁₃ b₁₄ b₁₅ t,
      l = b₀ :: b₁ :: b₂ :: b₃ :: b₄ :: b₅ :: b₆ :: b₇ ::
          b₈ :: b₉ :: b₁₀ :: b₁₁ :: b₁₂ :: b₁₃ :: b₁₄ :: b₁₅ :: t := by
  rcases l with _ | ⟨b₀, l⟩; · simp at h
  rcases l with _ | ⟨b₁, l⟩; · simp at h
  rcases l with _ | ⟨b₂, l⟩; · simp at h
  rcases l with _ | ⟨b₃, l⟩; · simp at h
  rcases l with _ | ⟨b₄, l⟩; · simp at h
  rcases l with _ | ⟨b₅, l⟩; · simp at h
  rcases l with _ | ⟨b₆, l⟩; · simp at h
  rcases l with _ | ⟨b₇, l⟩; · simp at h
  rcases l with _ | ⟨b₈, l⟩; · simp at h
  rcases l with _ | ⟨b₉, l⟩; · simp at h
  rcases l with _ | ⟨b₁₀, l⟩; · simp at h
  rcases l with _ | ⟨b₁₁, l⟩; · simp at h
  rcases l with _ | ⟨b₁₂, l⟩; · simp at h
  rcases l with _ | ⟨b₁₃, l⟩; · simp at h
  rcases l with _ | ⟨b₁₄, l⟩; · simp at h
  rcases l with _ | ⟨b₁₅, l⟩; · simp at h
  exact ⟨b₀, b₁, b₂, b₃, b₄, b₅, b₆, b₇, b₈, b₉, b₁₀, b₁₁, b₁₂, b₁₃, b₁₄, b₁₅, l, rfl⟩

/-- Unfolding of the embedded `MixChannels_NEON` on buffers long enough for
its fixed-width accesses: the first 16 output entries are replaced by the
eight interleaved left/right mixed lanes, the tail is untouched. -/
theorem neon_explicit (d₀ d₁ d₂ d₃ d₄ d₅ d₆ d₇ : Int) (drest : List Int)
    (o₀ o₁ o₂ o₃ o₄ o₅ o₆ o₇ o₈ o₉ o₁₀ o₁₁ o₁₂ o₁₃ o₁₄ o₁₅ : Int) (orest : List Int)
    (lvol rvol : Nat) (len : Int) :
    MixChannels_NEON
      (o₀ :: o₁ :: o₂ :: o₃ :: o₄ :: o₅ :: o₆ :: o₇ ::
       o₈ :: o₉ :: o₁₀ :: o₁₁ :: o₁₂ :: o₁₃ :: o₁₄ :: o₁₅ :: orest)
      (d₀ :: d₁ :: d₂ :: d₃ :: d₄ :: d₅ :: d₆ :: d₇ :: drest) lvol rvol len =
    some ([mixLane d₀ o₀ (scaleFactor lvol), mixLane d₀ o₁ (scaleFactor rvol),
           mixLane d₁ o₂ (scaleFactor lvol), mixLane d₁ o₃ (scaleFactor rvol),
           mixLane d₂ o₄ (scaleFactor lvol), mixLane d₂ o₅ (scaleFactor rvol),
           mixLane d₃ o₆ (scaleFactor lvol), mixLane d₃ o₇ (scaleFactor rvol),
           mixLane d₄ o₈ (scaleFactor lvol), mixLane d₄ o₉ (scaleFactor rvol),
           mixLane d₅ o₁₀ (scaleFactor lvol), mixLane d₅ o₁₁ (scaleFactor rvol),
           mixLane d₆ o₁₂ (scaleFactor lvol), mixLane d₆ o₁₃ (scaleFactor rvol),
           mixLane d₇ o₁₄ (scaleFactor lvol), mixLane d₇ o₁₅ (scaleFactor rvol)]
      ++ orest) := by
  unfold MixChannels_NEON
  rw [if_pos]
  · rfl
  · refine ⟨by simp, by simp⟩

/-- Bridge: on an 8-sample block with in-range cell contents, the embedded
NEON path produces exactly the spec-modelled scalar mix of the first 8
samples into the first 16 output entries. -/
theorem neon_eq_scalarMix (d₀ d₁ d₂ d₃ d₄ d₅ d₆ d₇ : Int) (drest : List Int)
    (o₀ o₁ o₂ o₃ o₄ o₅ o₆ o₇ o₈ o₉ o₁₀ o₁₁ o₁₂ o₁₃ o₁₄ o₁₅ : Int) (orest : List Int)
    (lvol rvol : Nat) (len : Int)
    (hd : ∀ x ∈ [d₀, d₁, d₂, d₃, d₄, d₅, d₆, d₇], -128 ≤ x ∧ x ≤ 127)
    (ho : ∀ x ∈ [o₀, o₁, o₂, o₃, o₄, o₅, o₆, o₇, o₈, o₉, o₁₀, o₁₁, o₁₂, o₁₃, o₁₄, o₁₅],
      -32768 ≤ x ∧ x ≤ 32767)
    (hlv : lvol ≤ 255) (hrv : rvol ≤ 255) :
    MixChannels_NEON
      (o₀ :: o₁ :: o₂ :: o₃ :: o₄ :: o₅ :: o₆ :: o₇ ::
       o₈ :: o₉ :: o₁₀ :: o₁₁ :: o₁₂ :: o₁₃ :: o₁₄ :: o₁₅ :: orest)
      (d₀ :: d₁ :: d₂ :: d₃ :: d₄ :: d₅ :: d₆ :: d₇ :: drest) lvol rvol len =
    some (scalarMix [d₀, d₁, d₂, d₃, d₄, d₅, d₆, d₇]
      (o₀ :: o₁ :: o₂ :: o₃ :: o₄ :: o₅ :: o₆ :: o₇ ::
       o₈ :: o₉ :: o₁₀ :: o₁₁ :: o₁₂ :: o₁₃ :: o₁₄ :: o₁₅ :: orest) lvol rvol) := by
  rw [neon_explicit]
  have e : ∀ s o : Int, ∀ v : Nat, -128 ≤ s → s ≤ 127 → -32768 ≤ o → o ≤ 32767 → v ≤ 255 →
      mixLane s o (scaleFactor v) = sat16 (scalarMixSample s v + o) := fun s o v a b c d hv =>
    mixLane_eq s o v a b c d hv
  rw [e d₀ o₀ lvol (hd d₀ (by simp)).1 (hd d₀ (by simp)).2
        (ho o₀ (by simp)).1 (ho o₀ (by simp)).2 hlv,
      e d₀ o₁ rvol (hd d₀ (by simp)).1 (hd d₀ (by simp)).2
        (ho o₁ (by simp)).1 (ho o₁ (by simp)).2 hrv,
      e d₁ o₂ lvol (hd d₁ (by simp)).1 (hd d₁ (by simp)).2
        (ho o₂ (by simp)).1 (ho o₂ (by simp)).2 hlv,
      e d₁ o₃ rvol (hd d₁ (by simp)).1 (hd d₁ (by simp)).2
        (ho o₃ (by simp)).1 (ho o₃ (by simp)).2 hrv,
      e d₂ o₄ lvol (hd d₂ (by simp)).1 (hd d₂ (by simp)).2
        (ho o₄ (by simp)).1 (ho o₄ (by simp)).2 hlv,
      e d₂ o₅ rvol (hd d₂ (by simp)).1 (hd d₂ (by simp)).2
        (ho o₅ (by simp)).1 (ho o₅ (by simp)).2 hrv,
      e d₃ o₆ lvol (hd d₃ (by simp)).1 (hd d₃ (by simp)).2
        (ho o₆ (by simp)).1 (ho o₆ (by simp)).2 hlv,
      e d₃ o₇ rvol (hd d₃ (by simp)).1 (hd d₃ (by simp)).2
        (ho o₇ (by simp)).1 (ho o₇ (by simp)).2 hrv,
      e d₄ o₈ lvol (hd d₄ (by simp)).1 (hd d₄ (by simp)).2
        (ho o₈ (by simp)).1 (ho o₈ (by simp)).2 hlv,
      e d₄ o₉ rvol (hd d₄ (by simp)).1 (hd d₄ (by simp)).2
        (ho o₉ (by simp)).1 (ho o₉ (by simp)).2 hrv,
      e d₅ o₁₀ lvol (hd d₅ (by simp)).1 (hd d₅ (by simp)).2
        (ho o₁₀ (by simp)).1 (ho o₁₀ (by simp)).2 hlv,
      e d₅ o₁₁ rvol (hd d₅ (by simp)).1 (hd d₅ (by simp)).2
        (ho o₁₁ (by simp)).1 (ho o₁₁ (by simp)).2 hrv,
      e d₆ o₁₂ lvol (hd d₆ (by simp)).1 (hd d₆ (by simp)).2
        (ho o₁₂ (by simp)).1 (ho o₁₂ (by simp)).2 hlv,
      e d₆ o₁₃ rvol (hd d₆ (by simp)).1 (hd d₆ (by simp)).2
        (ho o₁₃ (by simp)).1 (ho o₁₃ (by simp)).2 hrv,
      e d₇ o₁₄ lvol (hd d₇ (by simp)).1 (hd d₇ (by simp)).2
        (ho o₁₄ (by simp)).1 (ho o₁₄ (by simp)).2 hlv,
      e d₇ o₁₅ rvol (hd d₇ (by simp)).1 (hd d₇ (by simp)).2
        (ho o₁₅ (by simp)).1 (ho o₁₅ (by simp)).2 hrv]
  rfl

/-- Mixing with both volumes at zero adds a zero contribution into every
in-range output entry. -/
theorem scalarMix_zero (ds out : List Int)
    (ho : ∀ x ∈ out, -32768 ≤ x ∧ x ≤ 32767) : scalarMix ds out 0 0 = out := by
  induction ds generalizing out with
  | nil => rfl
  | cons s srest ih =>
    match out with
    | [] => rfl
    | [o] => rfl
    | o₁ :: o₂ :: orest =>
      have e : ∀ o : Int, -32768 ≤ o → o ≤ 32767 → sat16 (scalarMixSample s 0 + o) = o := by
        intro o a b
        have h0 : scalarMixSample s 0 = 0 := by
          simp only [scalarMixSample, Nat.cast_zero, mul_zero]
          decide
        rw [h0, zero_add, sat16_eq_of_mem o a b]
      show sat16 (scalarMixSample s 0 + o₁) :: sat16 (scalarMixSample s 0 + o₂) ::
          scalarMix srest orest 0 0 = _
      rw [e o₁ (ho o₁ (by simp)).1 (ho o₁ (by simp)).2,
          e o₂ (ho o₂ (by simp)).1 (ho o₂ (by simp)).2,
          ih orest (fun x hx => ho x (by simp [hx]))]

/-! ### Claims -/

/-- C10: for every volume `v` in `[0, 255]`, widening `v` to an unsigned
16-bit lane and reinterpreting the lane as signed 16-bit is value-preserving:
the signed lane equals `v` exactly, so the signed multiply of
`MixChannels_NEON` uses the intended scale factor for both channels. -/
theorem scale_factor_value_preserving (v : Nat) (hv : v ≤ 255) :
    scaleFactor v = (v : Int) :=
  scaleFactor_eq v hv

/-- Witness for `scale_factor_value_preserving` at `v = 255`. -/
theorem scale_factor_value_preserving_witness : scaleFactor 255 = (255 : Int) :=
  scale_factor_value_preserving 255 (by decide)

/-- C6: for every legal sample `s ∈ [-128, 127]` and scale factor derived
from a volume `v ∈ [0, 255]`, the 16-bit lane product of `MixChannels_NEON`
does not wrap, so the per-channel scaled contribution is exactly
`(s * v) >> 8` (floor division by 256), and the lane mixes exactly the
saturated sum of that contribution with the output entry. -/
theorem scale_and_shift_exact (s outv : Int) (v : Nat)
    (h₁ : -128 ≤ s) (h₂ : s ≤ 127) (ho₁ : -32768 ≤ outv) (ho₂ : outv ≤ 32767)
    (hv : v ≤ 255) :
    wrap16 (wrap8 s * scaleFactor v) = s * (v : Int) ∧
      mixLane s outv (scaleFactor v) = sat16 (Int.ediv (s * (v : Int)) 256 + outv) := by
  obtain ⟨hm₁, hm₂⟩ := mix_mul_bounds s v h₁ h₂ hv
  constructor
  · rw [wrap8_eq_of_mem s h₁ h₂, scaleFactor_eq v hv,
      wrap16_eq_of_mem (s * (v : Int)) (by omega) (by omega)]
  · rw [mixLane_eq s outv v h₁ h₂ ho₁ ho₂ hv]
    rfl

/-- Witness for `scale_and_shift_exact` at `s = 100`, `outv = 7`, `v = 255`. -/
theorem scale_and_shift_exact_witness :
    wrap16 (wrap8 100 * scaleFactor 255) = 100 * (255 : Int) ∧
      mixLane 100 7 (scaleFactor 255) = sat16 (Int.ediv (100 * (255 : Int)) 256 + 7) :=
  scale_and_shift_exact 100 7 255 (by decide) (by decide) (by decide) (by decide) (by decide)

/-- C2 counterexample: called with exactly the buffers of the claim
(`source = [100]`, `output = [0, 0]`, `length = 1`) the seed performs an
out-of-bounds access (it always loads 8 source bytes and 16 output entries),
so the call does not terminate with `output = [50, 99]`. -/
theorem boundary_example_cex :
    MixChannels_NEON [0, 0] [100] 128 255 1 = none ∧
      MixChannels_NEON [0, 0] [100] 128 255 1 ≠ some [50, 99] := by
  exact ⟨by decide, by decide⟩

/-- C2 (amended): with the source padded to the 8 samples and the output to
the 16 entries the seed always accesses, the first output frame comes out as
the claim computes: left `saturate((100 * 128) >> 8) + 0 = 50` and right
`saturate((100 * 255) >> 8) + 0 = 99`; the zero padding contributes zero to
the remaining frames. -/
theorem boundary_example_padded :
    MixChannels_NEON (List.replicate 16 0) (100 :: List.replicate 7 0) 128 255 1 =
      some (50 :: 99 :: List.replicate 14 0) := by
  decide

/-- C4 counterexample: called with `length = 4` and a 3-element source the
seed does not return a typed `LengthMismatch` failure — it has no error
result at all (`void` in C) and goes straight for its fixed 8-byte source
load, an out-of-bounds access. -/
theorem length_validation_cex :
    MixChannels_NEON [0, 0, 0, 0, 0, 0, 0, 0] [1, 2, 3] 10 10 4 = none := by
  decide

/-- C4 (amended): the seed validates nothing and has no typed failure
result; every call whose source holds fewer than 8 samples or whose output
holds fewer than 16 entries performs an out-of-bounds buffer access
(modelled as `none`) instead of being rejected. -/
theorem length_validation_oob (out data : List Int) (lvol rvol : Nat) (len : Int)
    (h : data.length < 8 ∨ out.length < 16) :
    MixChannels_NEON out data lvol rvol len = none := by
  unfold MixChannels_NEON
  rw [if_neg (by omega)]

/-- Witness for `length_validation_oob` at a 3-element source. -/
theorem length_validation_oob_witness :
    MixChannels_NEON [0, 0, 0, 0, 0, 0, 0, 0] [4, 5, 6] 9 9 4 = none :=
  length_validation_oob [0, 0, 0, 0, 0, 0, 0, 0] [4, 5, 6] 9 9 4 (by decide)

/-- C9: `MixChannels_NEON` processes exactly 8 source samples into exactly
the first 16 output entries regardless of its `len` argument: the result is
the same for any two `len` values, the call is defined exactly when the
fixed-width accesses fit the buffers, and everything past output index 15 is
untouched. -/
theorem fixed_width_ignores_len (out data : List Int) (lvol rvol : Nat) (len len₂ : Int) :
    MixChannels_NEON out data lvol rvol len = MixChannels_NEON out data lvol rvol len₂ ∧
      ((MixChannels_NEON out data lvol rvol len).isSome ↔
        8 ≤ data.length ∧ 16 ≤ out.length) ∧
      ∀ r, MixChannels_NEON out data lvol rvol len = some r → r.drop 16 = out.drop 16 := by
  refine ⟨rfl, ?_, ?_⟩
  · unfold MixChannels_NEON
    rcases Classical.em (8 ≤ data.length ∧ 16 ≤ out.length) with h | h
    · rw [if_pos h]
      simpa using h
    · rw [if_neg h]
      simpa using h
  · intro r hr
    have hl : 8 ≤ data.length ∧ 16 ≤ out.length := by
      by_contra hc
      unfold MixChannels_NEON at hr
      rw [if_neg hc] at hr
      exact Option.noConfusion hr
    obtain ⟨d₀, d₁, d₂, d₃, d₄, d₅, d₆, d₇, drest, rfl⟩ := exists_take8 data hl.1
    obtain ⟨o₀, o₁, o₂, o₃, o₄, o₅, o₆, o₇, o₈, o₉, o₁₀, o₁₁, o₁₂, o₁₃, o₁₄, o₁₅, orest, rfl⟩ :=
      exists_take16 out hl.2
    rw [neon_explicit] at hr
    injection hr with h
    subst h
    rfl

/-- Witness for `fixed_width_ignores_len`: the frame condition at a concrete
call (both volumes small, so the first 16 entries also stay zero). -/
theorem fixed_width_ignores_len_witness :
    (List.replicate 16 (0 : Int)).drop 16 = (List.replicate 16 (0 : Int)).drop 16 :=
  (fixed_width_ignores_len (List.replicate 16 0) (List.replicate 8 1) 3 4 5 6).2.2
    (List.replicate 16 0) (by decide)

/-- C3: whenever a call succeeds on an output whose entries are valid 16-bit
samples, every entry of the result lies in `[-32768, 32767]` (the scaled
contributions are added with saturation, never wrap-around); and in
particular `leftVolume = 255`, source sample `-128` and pre-existing output
sample `-32768` yield `-32768`, clamped. -/
theorem saturation_bound (out data res : List Int) (lvol rvol : Nat) (len : Int)
    (ho : ∀ x ∈ out, -32768 ≤ x ∧ x ≤ 32767)
    (hres : MixChannels_NEON out data lvol rvol len = some res) :
    (∀ x ∈ res, -32768 ≤ x ∧ x ≤ 32767) ∧
      MixChannels_NEON ((-32768) :: List.replicate 15 0) ((-128) :: List.replicate 7 0)
        255 0 0 = some ((-32768) :: List.replicate 15 0) := by
  constructor
  · intro x hx
    unfold MixChannels_NEON at hres
    split at hres
    · injection hres with h
      subst h
      rcases List.mem_append.mp hx with hm | hm
      · obtain ⟨i, _, hxm⟩ := List.mem_flatMap.mp hm
        have : x = mixLane (data.getD i 0) (out.getD (2 * i) 0) (scaleFactor lvol) ∨
            x = mixLane (data.getD i 0) (out.getD (2 * i + 1) 0) (scaleFactor rvol) := by
          simpa using hxm
        rcases this with rfl | rfl
        · exact mixLane_mem _ _ _
        · exact mixLane_mem _ _ _
      · exact ho x (List.mem_of_mem_drop hm)
    · exact Option.noConfusion hres
  · decide

/-- Witness for `saturation_bound` at a concrete all-zero call. -/
theorem saturation_bound_witness :
    (∀ x ∈ List.replicate 16 (0 : Int), -32768 ≤ x ∧ x ≤ 32767) ∧
      MixChannels_NEON ((-32768) :: List.replicate 15 0) ((-128) :: List.replicate 7 0)
        255 0 0 = some ((-32768) :: List.replicate 15 0) :=
  saturation_bound (List.replicate 16 0) (List.replicate 8 0) (List.replicate 16 0)
    0 0 0 (by decide) (by decide)

/-- C7: mixing with `leftVolume = 0` and `rightVolume = 0` leaves the output
buffer bit-for-bit unchanged, for every source block and every in-range
pre-existing output contents the seed's fixed-width call can touch. -/
theorem silence_preserving (out data : List Int) (len : Int)
    (hdl : 8 ≤ data.length) (hol : 16 ≤ out.length)
    (hd : ∀ x ∈ data, -128 ≤ x ∧ x ≤ 127)
    (ho : ∀ x ∈ out, -32768 ≤ x ∧ x ≤ 32767) :
    MixChannels_NEON out data 0 0 len = some out := by
  obtain ⟨d₀, d₁, d₂, d₃, d₄, d₅, d₆, d₇, drest, rfl⟩ := exists_take8 data hdl
  obtain ⟨o₀, o₁, o₂, o₃, o₄, o₅, o₆, o₇, o₈, o₉, o₁₀, o₁₁, o₁₂, o₁₃, o₁₄, o₁₅, orest, rfl⟩ :=
    exists_take16 out hol
  rw [neon_eq_scalarMix d₀ d₁ d₂ d₃ d₄ d₅ d₆ d₇ drest
      o₀ o₁ o₂ o₃ o₄ o₅ o₆ o₇ o₈ o₉ o₁₀ o₁₁ o₁₂ o₁₃ o₁₄ o₁₅ orest 0 0 len
      (fun x hx => hd x (by simp only [List.mem_cons, List.not_mem_nil, or_false] at hx ⊢; tauto))
      (fun x hx => ho x (by simp only [List.mem_cons, List.not_mem_nil, or_false] at hx ⊢; tauto))
      (by omega) (by omega)]
  rw [scalarMix_zero _ _ ho]

/-- Witness for `silence_preserving` at a concrete nonzero output. -/
theorem silence_preserving_witness :
    MixChannels_NEON (List.replicate 16 7) (List.replicate 8 100) 0 0 3 =
      some (List.replicate 16 7) :=
  silence_preserving (List.replicate 16 7) (List.replicate 8 100) 3
    (by decide) (by decide) (by decide) (by decide)

/-- C5 counterexample: at the valid tuple `length = 3`, a 3-sample source and
a 6-entry output, the seed does not stay inside the declared bounds
`source[0..N-1]` / `output[0..2N-1]`: it unconditionally loads 8 source
bytes and 16 output entries, an out-of-bounds access (modelled as `none`). -/
theorem access_bounds_cex :
    MixChannels_NEON [0, 0, 0, 0, 0, 0] [5, 5, 5] 200 200 3 = none := by
  decide

/-- C5 (amended): the seed's access window is fixed, not `length`-derived: a
call reads only `source[0..7]` and reads/writes only `output[0..15]`.  Two
calls whose buffers agree on those windows produce the same first 16 output
entries, and each leaves everything past output index 15 untouched; for
`length ≥ 8` this window sits inside the claim's declared bounds, while for
`length < 8` it exceeds them. -/
theorem access_bounds_fixed_window (out out₂ data data₂ : List Int) (lvol rvol : Nat)
    (len len₂ : Int)
    (hd : data.take 8 = data₂.take 8) (ho : out.take 16 = out₂.take 16)
    (hdl : 8 ≤ data.length) (hdl₂ : 8 ≤ data₂.length)
    (hol : 16 ≤ out.length) (hol₂ : 16 ≤ out₂.length) :
    ∃ r r₂, MixChannels_NEON out data lvol rvol len = some r ∧
      MixChannels_NEON out₂ data₂ lvol rvol len₂ = some r₂ ∧
      r.take 16 = r₂.take 16 ∧ r.drop 16 = out.drop 16 ∧ r₂.drop 16 = out₂.drop 16 := by
  obtain ⟨d₀, d₁, d₂, d₃, d₄, d₅, d₆, d₇, drest, rfl⟩ := exists_take8 data hdl
  obtain ⟨e₀, e₁, e₂, e₃, e₄, e₅, e₆, e₇, erest, rfl⟩ := exists_take8 data₂ hdl₂
  obtain ⟨o₀, o₁, o₂, o₃, o₄, o₅, o₆, o₇, o₈, o₉, o₁₀, o₁₁, o₁₂, o₁₃, o₁₄, o₁₅, orest, rfl⟩ :=
    exists_take16 out hol
  obtain ⟨p₀, p₁, p₂, p₃, p₄, p₅, p₆, p₇, p₈, p₉, p₁₀, p₁₁, p₁₂, p₁₃, p₁₄, p₁₅, prest, rfl⟩ :=
    exists_take16 out₂ hol₂
  have hd₈ : ([d₀, d₁, d₂, d₃, d₄, d₅, d₆, d₇] : List Int) =
      [e₀, e₁, e₂, e₃, e₄, e₅, e₆, e₇] := hd
  have ho₁₆ : ([o₀, o₁, o₂, o₃, o₄, o₅, o₆, o₇, o₈, o₉, o₁₀, o₁₁, o₁₂, o₁₃, o₁₄, o₁₅] :
      List Int) = [p₀, p₁, p₂, p₃, p₄, p₅, p₆, p₇, p₈, p₉, p₁₀, p₁₁, p₁₂, p₁₃, p₁₄, p₁₅] :=
    ho
  simp only [List.cons.injEq, and_true] at hd₈ ho₁₆
  obtain ⟨rfl, rfl, rfl, rfl, rfl, rfl, rfl, rfl⟩ := hd₈
  obtain ⟨rfl, rfl, rfl, rfl, rfl, rfl, rfl, rfl, rfl, rfl, rfl, rfl, rfl, rfl, rfl, rfl⟩ :=
    ho₁₆
  exact ⟨_, _,
    neon_explicit d₀ d₁ d₂ d₃ d₄ d₅ d₆ d₇ drest
      o₀ o₁ o₂ o₃ o₄ o₅ o₆ o₇ o₈ o₉ o₁₀ o₁₁ o₁₂ o₁₃ o₁₄ o₁₅ orest lvol rvol len,
    neon_explicit d₀ d₁ d₂ d₃ d₄ d₅ d₆ d₇ erest
      o₀ o₁ o₂ o₃ o₄ o₅ o₆ o₇ o₈ o₉ o₁₀ o₁₁ o₁₂ o₁₃ o₁₄ o₁₅ prest lvol rvol len₂,
    rfl, rfl, rfl⟩

/-- Witness for `access_bounds_fixed_window`: the two calls differ only past
the fixed access window. -/
theorem access_bounds_fixed_window_witness :
    ∃ r r₂,
      MixChannels_NEON (List.replicate 16 2) (List.replicate 8 1) 6 7 8 = some r ∧
      MixChannels_NEON (List.replicate 16 2 ++ [11]) (List.replicate 8 1 ++ [12]) 6 7 9 =
        some r₂ ∧
      r.take 16 = r₂.take 16 ∧
      r.drop 16 = (List.replicate 16 (2 : Int)).drop 16 ∧
      r₂.drop 16 = (List.replicate 16 (2 : Int) ++ [11]).drop 16 :=
  access_bounds_fixed_window (List.replicate 16 2) (List.replicate 16 2 ++ [11])
    (List.replicate 8 1) (List.replicate 8 1 ++ [12]) 6 7 8 9
    (by decide) (by decide) (by decide) (by decide) (by decide) (by decide)

/-- C8 counterexample: the seed does not leave the right channel alone: with
`lvol = 0` and `rvol = 255`, source `[100, 0, ..., 0]` and an all-zero
output, the call changes the odd-index entry `output[1]` from `0` to `99`. -/
theorem left_only_cex :
    MixChannels_NEON (List.replicate 16 0) (100 :: List.replicate 7 0) 0 255 8 =
      some (0 :: 99 :: List.replicate 14 0) ∧
      (0 :: 99 :: List.replicate 14 0 : List Int).getD 1 0 ≠
        (List.replicate 16 (0 : Int)).getD 1 0 := by
  exact ⟨by decide, by decide⟩

/-- C8 (amended): despite the stale `TODO` comment, the seed writes both
channels: on every call whose buffers cover the fixed access window, the
even-index output entries receive the `lvol`-scaled contribution and the
odd-index entries the `rvol`-scaled contribution of the corresponding source
sample. -/
theorem both_channels_written (out data : List Int) (lvol rvol : Nat) (len : Int)
    (hdl : 8 ≤ data.length) (hol : 16 ≤ out.length) :
    ∃ r, MixChannels_NEON out data lvol rvol len = some r ∧
      ∀ i < 8,
        r.getD (2 * i) 0 = mixLane (data.getD i 0) (out.getD (2 * i) 0) (scaleFactor lvol) ∧
        r.getD (2 * i + 1) 0 =
          mixLane (data.getD i 0) (out.getD (2 * i + 1) 0) (scaleFactor rvol) := by
  obtain ⟨d₀, d₁, d₂, d₃, d₄, d₅, d₆, d₇, drest, rfl⟩ := exists_take8 data hdl
  obtain ⟨o₀, o₁, o₂, o₃, o₄, o₅, o₆, o₇, o₈, o₉, o₁₀, o₁₁, o₁₂, o₁₃, o₁₄, o₁₅, orest, rfl⟩ :=
    exists_take16 out hol
  refine ⟨_, neon_explicit d₀ d₁ d₂ d₃ d₄ d₅ d₆ d₇ drest
    o₀ o₁ o₂ o₃ o₄ o₅ o₆ o₇ o₈ o₉ o₁₀ o₁₁ o₁₂ o₁₃ o₁₄ o₁₅ orest lvol rvol len, ?_⟩
  intro i hi
  interval_cases i <;> exact ⟨rfl, rfl⟩

/-- Witness for `both_channels_written`: lane formulas at a concrete call. -/
theorem both_channels_written_witness :
    ∃ r, MixChannels_NEON (List.replicate 16 3) (List.replicate 8 50) 10 20 8 = some r ∧
      ∀ i < 8,
        r.getD (2 * i) 0 = mixLane ((List.replicate 8 (50 : Int)).getD i 0)
          ((List.replicate 16 (3 : Int)).getD (2 * i) 0) (scaleFactor 10) ∧
        r.getD (2 * i + 1) 0 = mixLane ((List.replicate 8 (50 : Int)).getD i 0)
          ((List.replicate 16 (3 : Int)).getD (2 * i + 1) 0) (scaleFactor 20) :=
  both_channels_written (List.replicate 16 3) (List.replicate 8 50) 10 20 8
    (by decide) (by decide)

/-- C1 counterexample: at the valid tuple `length = 16` (16-sample source,
32-entry output, both volumes 255) the spec-modelled ScalarFallback mixes all
16 frames while the seed's vectorized path mixes only the first 8, so the
final outputs are not byte-identical. -/
theorem vector_scalar_equiv_cex :
    ScalarFallback (List.replicate 32 0) (List.replicate 16 100) 255 255 16 =
      Except.ok (List.replicate 32 99) ∧
    MixChannels_NEON (List.replicate 32 0) (List.replicate 16 100) 255 255 16 =
      some (List.replicate 16 99 ++ List.replicate 16 0) ∧
    (List.replicate 32 (99 : Int) : List Int) ≠ List.replicate 16 99 ++ List.replicate 16 0 := by
  exact ⟨rfl, by decide, by decide⟩

/-- C1 (amended): the vector/scalar equivalence holds exactly on blocks of
the hardware vector width: for every valid tuple with `length = 8` (8-sample
source, in-range cell contents, output of at least 16 entries), the
vectorized path and the ScalarFallback path produce byte-identical final
output contents; for other lengths the seed's fixed 8-sample window breaks
the equivalence. -/
theorem vector_scalar_equiv_len8 (out data : List Int) (lvol rvol : Nat) (len : Int)
    (hdl : data.length = 8) (hol : 16 ≤ out.length)
    (hd : ∀ x ∈ data, -128 ≤ x ∧ x ≤ 127)
    (ho : ∀ x ∈ out, -32768 ≤ x ∧ x ≤ 32767)
    (hlv : lvol ≤ 255) (hrv : rvol ≤ 255) :
    ∃ r, ScalarFallback out data lvol rvol 8 = Except.ok r ∧
      MixChannels_NEON out data lvol rvol len = some r := by
  obtain ⟨d₀, d₁, d₂, d₃, d₄, d₅, d₆, d₇, drest, rfl⟩ := exists_take8 data (by omega)
  have hnil : drest = [] := by
    simp only [List.length_cons] at hdl
    exact List.eq_nil_of_length_eq_zero (by omega)
  subst hnil
  obtain ⟨o₀, o₁, o₂, o₃, o₄, o₅, o₆, o₇, o₈, o₉, o₁₀, o₁₁, o₁₂, o₁₃, o₁₄, o₁₅, orest, rfl⟩ :=
    exists_take16 out hol
  have hoc : ∀ x ∈ [o₀, o₁, o₂, o₃, o₄, o₅, o₆, o₇, o₈, o₉, o₁₀, o₁₁, o₁₂, o₁₃, o₁₄, o₁₅],
      -32768 ≤ x ∧ x ≤ 32767 := by
    intro x hx
    apply ho
    simp only [List.mem_cons, List.not_mem_nil, or_false] at hx ⊢
    tauto
  refine ⟨scalarMix [d₀, d₁, d₂, d₃, d₄, d₅, d₆, d₇]
      (o₀ :: o₁ :: o₂ :: o₃ :: o₄ :: o₅ :: o₆ :: o₇ ::
       o₈ :: o₉ :: o₁₀ :: o₁₁ :: o₁₂ :: o₁₃ :: o₁₄ :: o₁₅ :: orest) lvol rvol, ?_, ?_⟩
  · unfold ScalarFallback
    rw [if_pos ⟨by rfl, by simp only [List.length_cons]; omega⟩]
  · exact neon_eq_scalarMix d₀ d₁ d₂ d₃ d₄ d₅ d₆ d₇ []
      o₀ o₁ o₂ o₃ o₄ o₅ o₆ o₇ o₈ o₉ o₁₀ o₁₁ o₁₂ o₁₃ o₁₄ o₁₅ orest lvol rvol len
      hd hoc hlv hrv

/-- Witness for `vector_scalar_equiv_len8` at a concrete valid length-8
call. -/
theorem vector_scalar_equiv_len8_witness :
    ∃ r, ScalarFallback (List.replicate 16 0) (List.replicate 8 100) 128 255 8 =
        Except.ok r ∧
      MixChannels_NEON (List.replicate 16 0) (List.replicate 8 100) 128 255 8 = some r :=
  vector_scalar_equiv_len8 (List.replicate 16 0) (List.replicate 8 100) 128 255 8
    (by decide) (by decide) (by decide) (by decide) (by decide) (by decide)
